import Mathlib

/-!
Verification of `generate_materials.py` (Material Generator for Repak).

The script is embedded shallowly: strings are `List Char`, the filesystem is
an association list from paths to file data, fallible I/O operations are
modelled by `Except` and an error oracle, and each Python function becomes a
Lean function of the same name.
-/

set_option autoImplicit false

namespace GenMat

/-- Characters of a string literal; all embedded strings are `List Char`. -/
def str (s : String) : List Char := s.data

/-- The double-quote character. -/
def dq : Char := Char.ofNat 34

/-- The open-brace character. -/
def lbrace : Char := Char.ofNat 123

/-- The forward-slash character. -/
def slash : Char := Char.ofNat 47

/-- Python `str.strip()`: drop leading and trailing whitespace. -/
def pyStrip (s : List Char) : List Char :=
  ((s.dropWhile Char.isWhitespace).reverse.dropWhile Char.isWhitespace).reverse

/-- Python `str.split(sep)` for a one-character separator: no collapsing of
empty fields, and the result is never empty. -/
def pySplit (sep : Char) : List Char → List (List Char)
  | [] => [[]]
  | c :: t =>
    let r := pySplit sep t
    if c = sep then [] :: r
    else
      match r with
      | [] => [[c]]
      | h :: t2 => (c :: h) :: t2

/-- Index of the first occurrence of `pat` in `s` (Python `str.find`),
`none` when `pat` does not occur. -/
def findSub (pat : List Char) : List Char → Option Nat
  | [] => if pat.isPrefixOf ([] : List Char) then some 0 else none
  | c :: t =>
    if pat.isPrefixOf (c :: t) then some 0
    else (findSub pat t).map (· + 1)

/-- Whether `pat` occurs in `s` as a contiguous substring (Python `in`). -/
def containsSub (pat s : List Char) : Bool := (findSub pat s).isSome

/-- Index of the last occurrence of character `c` in `s`
(Python `str.rfind` restricted to a single character). -/
def rfindChar (c : Char) : List Char → Option Nat
  | [] => none
  | x :: t =>
    match rfindChar c t with
    | some i => some (i + 1)
    | none => if x = c then some 0 else none

/-- Number of positions of `s` at which `pat` starts as a substring. -/
def countSub (pat : List Char) : List Char → Nat
  | [] => if pat.isPrefixOf ([] : List Char) then 1 else 0
  | c :: t => (if pat.isPrefixOf (c :: t) then 1 else 0) + countSub pat t

/-- The fixed-shape material description written by `create_material_json`:
one field per key of the Python dict (the leading `$` of the last seven keys
is dropped in the Lean field names), with `textures` holding the `$textures`
sub-mapping as an ordered key/value list. -/
structure MaterialDescriptor where
  name : List Char
  width : Nat
  height : Nat
  depth : Nat
  glueFlags : List Char
  glueFlags2 : List Char
  blendStates : List (List Char)
  blendStateMask : List Char
  depthStencilFlags : List Char
  rasterizerFlags : List Char
  uberBufferFlags : List Char
  features : List Char
  samplers : List Char
  surfaceProp : List Char
  surfaceProp2 : List Char
  shaderType : List Char
  shaderSet : List Char
  textures : List (List Char × List Char)
  depthShadowMaterial : List Char
  depthPrepassMaterial : List Char
  depthVSMMaterial : List Char
  depthShadowTightMaterial : List Char
  colpassMaterial : List Char
  textureAnimation : List Char
deriving DecidableEq, Repr

/-- Embedding of `create_material_json(material_name)`: the template dict
with the name field and the seven texture reference strings derived from the
full material name, all other fields constant. -/
def create_material_json (material_name : List Char) : MaterialDescriptor where
  name := material_name
  width := 2048
  height := 2048
  depth := 0
  glueFlags := str "0x56000420"
  glueFlags2 := str "0x0"
  blendStates :=
    [str "0xF0000000", str "0xF0000000", str "0xF0000000", str "0xF0000000",
     str "0xF0000000", str "0xF0000000", str "0xF0000000", str "0xF0000000"]
  blendStateMask := str "0x4"
  depthStencilFlags := str "0x17"
  rasterizerFlags := str "0x6"
  uberBufferFlags := str "0x0"
  features := str "0x1F5A92BD"
  samplers := str "0x1D0300"
  surfaceProp := str "default"
  surfaceProp2 := str ""
  shaderType := str "sknp"
  shaderSet := str "0x97E4F7D956E5E6CE"
  textures :=
    [(str "0", str "texture/" ++ material_name ++ str "_0.rpak"),
     (str "1", str "texture/" ++ material_name ++ str "_1.rpak"),
     (str "2", str "texture/" ++ material_name ++ str "_2.rpak"),
     (str "3", str "texture/" ++ material_name ++ str "_3.rpak"),
     (str "4", str "texture/" ++ material_name ++ str "_4.rpak"),
     (str "5", str "texture/" ++ material_name ++ str "_5.rpak"),
     (str "6", str "texture/" ++ material_name ++ str "_6.rpak")]
  depthShadowMaterial := str "0x2B93C99C67CC8B51"
  depthPrepassMaterial := str "0x1EBD063EA03180C7"
  depthVSMMaterial := str "0xF95A7FA9E8DE1A0E"
  depthShadowTightMaterial := str "0x227C27B608B3646B"
  colpassMaterial := str "0x0"
  textureAnimation := str "0x0"

/-- Modelled from the spec wording of the claim: the seven texture reference
strings would be exactly the material name with the index appended, with no
directory prefix. Used only to compare the claim against the source. -/
def claimedTextures (name : List Char) : List (List Char × List Char) :=
  [(str "0", name ++ str "_0.rpak"),
   (str "1", name ++ str "_1.rpak"),
   (str "2", name ++ str "_2.rpak"),
   (str "3", name ++ str "_3.rpak"),
   (str "4", name ++ str "_4.rpak"),
   (str "5", name ++ str "_5.rpak"),
   (str "6", name ++ str "_6.rpak")]

/-- A path wrapped in double quotes, as searched for in the manifest text. -/
def quoted (p : List Char) : List Char := dq :: (p ++ [dq])

/-- The marker locating the first existing material entry in the manifest. -/
def matlMarker : List Char := str "\"_type\": \"matl\""

/-- The fixed-name manifest file updated by the patcher. -/
def manifestName : List Char := str "common_flowstate.json"

/-- The fixed-name binary template file required by the generator. -/
def uberName : List Char := str "testuber.uber"

/-- One inserted manifest entry block for a new material path, exactly the
f-string of the source (four-space indent, type literal, path, trailing
comma and newline). -/
def entryBlock (material_path : List Char) : List Char :=
  str "    \x7b\n      \"_type\": \"matl\",\n      \"_path\": \"" ++
    material_path ++ str "\"\n    \x7d,\n"

/-- The accumulated replacement text: the entry blocks of the new paths
concatenated in order, starting from the empty string. -/
def newEntriesText (new_material_paths : List (List Char)) : List Char :=
  new_material_paths.foldl (fun acc p => acc ++ entryBlock p) []

/-- The single pass over the candidate paths: each path whose quoted form
occurs in the original content goes to the second (existing) list, the rest
to the first (new) list, both in input order. -/
def classifyPaths (content : List Char) : List (List Char) → List (List Char) × List (List Char)
  | [] => ([], [])
  | p :: ps =>
    let r := classifyPaths content ps
    if containsSub (quoted p) content then (r.1, p :: r.2)
    else (p :: r.1, r.2)

/-- How a run of `update_common_flowstate_json` ends. -/
inductive PatchOutcome where
  | fileNotFound
  | allExist
  | noMarker
  | noBrace
  | writeFailed (e : List Char)
  | written (newContent : List Char) (numNew : Nat)
deriving DecidableEq, Repr

/-- Embedding of `update_common_flowstate_json(material_paths)`.
`content?` is the result of reading the manifest (`none` models
`FileNotFoundError`), `writeResult` the outcome of the final file write.
The result is `Except.error` only for exceptions the source lets escape;
the source catches every exception of the write, so that branch yields
`Except.ok (.writeFailed e)`. -/
def update_common_flowstate_json (content? : Option (List Char))
    (material_paths : List (List Char)) (writeResult : Except (List Char) Unit) :
    Except (List Char) PatchOutcome :=
  match content? with
  | none => .ok .fileNotFound
  | some content =>
    let new_material_paths := (classifyPaths content material_paths).1
    if new_material_paths = [] then .ok .allExist
    else
      match findSub matlMarker content with
      | none => .ok .noMarker
      | some first_matl_index =>
        match rfindChar lbrace (content.take first_matl_index) with
        | none => .ok .noBrace
        | some entry_start =>
          let new_content :=
            content.take entry_start ++ newEntriesText new_material_paths ++
              content.drop entry_start
          match writeResult with
          | .ok _ => .ok (.written new_content new_material_paths.length)
          | .error e => .ok (.writeFailed e)

/-- Contents of a file in the modelled filesystem: the manifest is handled
as raw text, material descriptions are written with `json.dump`, and the
template is an opaque byte string copied verbatim. -/
inductive FileData where
  | text (s : List Char)
  | jsonFile (m : MaterialDescriptor)
  | binary (b : List Char)
deriving DecidableEq, Repr

/-- Association-list update: replace the binding of `p` or append it. -/
def setA (p : List Char) (d : FileData) :
    List (List Char × FileData) → List (List Char × FileData)
  | [] => [(p, d)]
  | (q, e) :: t => if q = p then (p, d) :: t else (q, e) :: setA p d t

/-- Association-list search. -/
def lookupA (p : List Char) : List (List Char × FileData) → Option FileData
  | [] => none
  | (q, e) :: t => if q = p then some e else lookupA p t

/-- The modelled filesystem: files by path, plus the set of directories. -/
structure FS where
  files : List (List Char × FileData)
  dirs : List (List Char)
deriving DecidableEq, Repr

/-- Read a file. -/
def getFile (fs : FS) (p : List Char) : Option FileData := lookupA p fs.files

/-- Whether a file exists (`os.path.exists` on a file path). -/
def hasFile (fs : FS) (p : List Char) : Bool := (getFile fs p).isSome

/-- Read a file as text; `none` models `FileNotFoundError`. -/
def getText (fs : FS) (p : List Char) : Option (List Char) :=
  match getFile fs p with
  | some (.text s) => some s
  | _ => none

/-- Write (create or overwrite) a file. -/
def setFile (fs : FS) (p : List Char) (d : FileData) : FS :=
  { fs with files := setA p d fs.files }

/-- `Path.mkdir(parents=True, exist_ok=True)`: record the directory,
leaving a pre-existing one untouched. -/
def mkdirP (fs : FS) (d : List Char) : FS :=
  if fs.dirs.contains d then fs else { fs with dirs := fs.dirs ++ [d] }

/-- An error oracle for write operations: `wf p = some e` means a write or
copy targeting path `p` raises the I/O exception `e`. -/
def WriteOracle : Type := List Char → Option (List Char)

/-- The manifest-write result the oracle induces. -/
def wrOf (wf : WriteOracle) : Except (List Char) Unit :=
  match wf manifestName with
  | some e => .error e
  | none => .ok ()

/-- `material_name.split('/')[-1]`: the base identifier of a name. -/
def baseName (material_name : List Char) : List Char :=
  (pySplit slash material_name).getLastD []

/-- The parent path: `'/'.join(material_name.split('/')[:-1])` when the name
contains a slash, the empty string otherwise. -/
def parentPath (material_name : List Char) : List Char :=
  if material_name.contains slash then
    List.intercalate [slash] (pySplit slash material_name).dropLast
  else []

/-- The output directory for a material: `assets/material` joined with the
parent path when there is one. -/
def materialDir (material_name : List Char) : List Char :=
  if parentPath material_name = [] then str "assets/material"
  else str "assets/material" ++ slash :: parentPath material_name

/-- The path of the generated JSON description file. -/
def jsonFilePath (material_name : List Char) : List Char :=
  materialDir material_name ++ slash :: (baseName material_name ++ str "_sknp.json")

/-- The path of the generated binary template copy. -/
def uberFilePath (material_name : List Char) : List Char :=
  materialDir material_name ++ slash :: (baseName material_name ++ str "_sknp.uber")

/-- The logical manifest path recorded for a material:
`material/<full_material_name>_sknp.rpak`, a pure string concatenation. -/
def logicalPath (material_name : List Char) : List Char :=
  str "material/" ++ material_name ++ str "_sknp.rpak"

/-- The body of the per-material loop of `generate_materials`: create the
directory, write the JSON description, copy the template. A write the
oracle fails, or a missing template at copy time, raises (`Except.error`);
nothing in the loop catches. Returns the updated filesystem and the
recorded logical manifest path. -/
def processOne (wf : WriteOracle) (fs : FS) (material_name : List Char) :
    Except (List Char) (FS × List Char) :=
  let fs1 := mkdirP fs (materialDir material_name)
  match wf (jsonFilePath material_name) with
  | some e => .error e
  | none =>
    let fs2 := setFile fs1 (jsonFilePath material_name)
      (.jsonFile (create_material_json material_name))
    match getFile fs2 uberName with
    | none => .error (str "FileNotFoundError")
    | some tmpl =>
      match wf (uberFilePath material_name) with
      | some e => .error e
      | none => .ok (setFile fs2 (uberFilePath material_name) tmpl,
          logicalPath material_name)

/-- The per-material loop over the names, in input order, collecting the
recorded logical manifest paths. -/
def genLoop (wf : WriteOracle) : FS → List (List Char) →
    Except (List Char) (FS × List (List Char))
  | fs, [] => .ok (fs, [])
  | fs, n :: ns =>
    match processOne wf fs n with
    | .error e => .error e
    | .ok (fs1, p) =>
      match genLoop wf fs1 ns with
      | .error e => .error e
      | .ok (fs2, ps) => .ok (fs2, p :: ps)

/-- Running the patch phase against the filesystem: read the manifest, run
the pure patcher, and apply the write when it reports `written`. -/
def runPatch (fs : FS) (wf : WriteOracle) (material_paths : List (List Char)) :
    Except (List Char) (FS × PatchOutcome) :=
  match update_common_flowstate_json (getText fs manifestName) material_paths (wrOf wf) with
  | .ok (.written nc k) => .ok (setFile fs manifestName (.text nc), .written nc k)
  | .ok out => .ok (fs, out)
  | .error e => .error e

/-- How a run of `generate_materials` ends when no exception escapes. -/
inductive GenOutcome where
  | noNames
  | noTemplate
  | completed (material_paths : List (List Char)) (patch : PatchOutcome)
deriving DecidableEq, Repr

/-- Embedding of `generate_materials(material_names)`: empty-input check,
template-existence check, the per-material loop, then the manifest patch. -/
def generate_materials (fs : FS) (wf : WriteOracle) (material_names : List (List Char)) :
    Except (List Char) (FS × GenOutcome) :=
  if material_names = [] then .ok (fs, .noNames)
  else if hasFile fs uberName = false then .ok (fs, .noTemplate)
  else
    match genLoop wf fs material_names with
    | .error e => .error e
    | .ok (fs1, material_paths) =>
      match runPatch fs1 wf material_paths with
      | .error e => .error e
      | .ok (fs2, out) => .ok (fs2, .completed material_paths out)

/-- The confirmation test of `main`: the response, stripped and lowered,
is a member of `('y', 'yes')`. -/
def confirmAccepted (confirm : List Char) : Bool :=
  ((pyStrip confirm).map Char.toLower == str "y") ||
    ((pyStrip confirm).map Char.toLower == str "yes")

/-- How a run of `main` ends when no exception escapes. -/
inductive MainOutcome where
  | noNamesMain
  | cancelled
  | ran (g : GenOutcome)
deriving DecidableEq, Repr

/-- Embedding of the tail of `main`, after the names have been collected:
the empty-list check, the confirmation prompt, and the dispatch to
`generate_materials` or the cancellation message. -/
def main_model (fs : FS) (wf : WriteOracle) (material_names : List (List Char))
    (confirm : List Char) : Except (List Char) (FS × MainOutcome) :=
  if material_names = [] then .ok (fs, .noNamesMain)
  else if confirmAccepted confirm then
    match generate_materials fs wf material_names with
    | .error e => .error e
    | .ok (fs1, g) => .ok (fs1, .ran g)
  else .ok (fs, .cancelled)

/-- C1: the claim is refuted at the material name `foo`: the generated
`$textures` sub-mapping is not the mapping the claim describes, because each
value carries the `texture/` directory prefix, so the entry at key `0` is
`texture/foo_0.rpak` and not `foo_0.rpak`. -/
theorem C1_counterexample :
    (create_material_json (str "foo")).textures ≠ claimedTextures (str "foo") := by
  decide

/-- C1 (amended): for every material name, the generated Material
Descriptor's `$textures` sub-mapping has exactly seven entries, indexed by
the digit strings `0` through `6` in order, and the value at index `i` is
`texture/<name>_<i>.rpak`, where `<name>` is the full material name as
entered. -/
theorem C1_textures (material_name : List Char) :
    (create_material_json material_name).textures =
      (List.range 7).map (fun i =>
        (Nat.toDigits 10 i,
         str "texture/" ++ material_name ++ (str "_" ++ Nat.toDigits 10 i ++ str ".rpak"))) :=
  rfl

/-- The accumulated replacement text is the concatenation of the entry
blocks of the paths, in order, after an arbitrary prefix. -/
theorem newEntriesText_foldl (acc : List Char) (ps : List (List Char)) :
    ps.foldl (fun a p => a ++ entryBlock p) acc = acc ++ (ps.map entryBlock).flatten := by
  induction ps generalizing acc with
  | nil => simp
  | cons p ps ih => simp [List.foldl_cons, ih, List.append_assoc]

/-- The accumulated replacement text equals one block per new path, joined. -/
theorem newEntriesText_eq_join (ps : List (List Char)) :
    newEntriesText ps = (ps.map entryBlock).flatten := by
  simpa using newEntriesText_foldl [] ps

/-- C2: whenever the patcher reports a successful write, the written text is
the original content split at the open brace that starts the first existing
matl entry, with exactly one fixed-shape entry block per new path inserted
there, concatenated in discovery order; every byte before and after the
insertion point is the original content unchanged. -/
theorem C2_manifest_insertion (content : List Char) (material_paths : List (List Char))
    (nc : List Char) (k : Nat)
    (h : update_common_flowstate_json (some content) material_paths (.ok ()) =
      .ok (.written nc k)) :
    ∃ first_matl_index entry_start,
      findSub matlMarker content = some first_matl_index ∧
      rfindChar lbrace (content.take first_matl_index) = some entry_start ∧
      nc = content.take entry_start ++
        ((classifyPaths content material_paths).1.map entryBlock).flatten ++
        content.drop entry_start ∧
      content.take entry_start ++ content.drop entry_start = content ∧
      k = (classifyPaths content material_paths).1.length := by
  simp only [update_common_flowstate_json] at h
  split at h
  · exact absurd h (by simp)
  · split at h
    · exact absurd h (by simp)
    · next first_matl_index hfind =>
      split at h
      · exact absurd h (by simp)
      · next entry_start hrf =>
        simp only [Except.ok.injEq, PatchOutcome.written.injEq] at h
        exact ⟨first_matl_index, entry_start, hfind, hrf,
          by rw [← h.1, newEntriesText_eq_join],
          List.take_append_drop entry_start content, h.2.symm⟩

/-- A small manifest with one existing matl entry, used as concrete input. -/
def c2content : List Char :=
  str "\x7b\n  \"files\": [\n    \x7b\n      \"_type\": \"matl\",\n      \"_path\": \"material/a_sknp.rpak\"\n    \x7d\n  ]\n\x7d\n"

/-- A single new candidate path, used as concrete input. -/
def c2paths : List (List Char) := [str "material/b_sknp.rpak"]

set_option maxRecDepth 8000 in
/-- C2 witness: the insertion theorem instantiated at a concrete manifest
and one new path. -/
theorem C2_witness :
    ∃ nc k, update_common_flowstate_json (some c2content) c2paths (.ok ()) =
        .ok (.written nc k) ∧
      ∃ first_matl_index entry_start,
        findSub matlMarker c2content = some first_matl_index ∧
        rfindChar lbrace (c2content.take first_matl_index) = some entry_start ∧
        nc = c2content.take entry_start ++
          ((classifyPaths c2content c2paths).1.map entryBlock).flatten ++
          c2content.drop entry_start ∧
        c2content.take entry_start ++ c2content.drop entry_start = c2content ∧
        k = (classifyPaths c2content c2paths).1.length :=
  ⟨_, _, rfl, C2_manifest_insertion c2content c2paths _ _ rfl⟩

/-- A small manifest with one existing matl entry, for the duplicate-input
counterexample. -/
def c3content : List Char :=
  str "\x7b\n  \"files\": [\n    \x7b\n      \"_type\": \"matl\",\n      \"_path\": \"material/a_sknp.rpak\"\n    \x7d\n  ]\n\x7d\n"

/-- A candidate path absent from `c3content`. -/
def c3path : List Char := str "material/b_sknp.rpak"

set_option maxRecDepth 8000 in
/-- C3: the claim is refuted when the same new path occurs twice in the
candidate sequence: the path occurs zero times in the original manifest,
yet the patcher writes a manifest in which its quoted form occurs twice, so
the path is not unique after patching and re-processing the duplicate was
not a no-op. -/
theorem C3_counterexample :
    ∃ nc, update_common_flowstate_json (some c3content) [c3path, c3path] (.ok ()) =
        .ok (.written nc 2) ∧
      countSub (quoted c3path) c3content = 0 ∧
      countSub (quoted c3path) nc = 2 :=
  ⟨_, rfl, rfl, rfl⟩

/-- C3 (amended): a candidate path already present in the manifest text is
skipped entirely (zero inserted blocks mention it), and a candidate path not
present is inserted once per occurrence in the candidate sequence; hence
uniqueness after patching holds when the candidate paths are pairwise
distinct, but a duplicated new candidate is inserted multiple times, because
deduplication consults only the original manifest text. -/
theorem C3_path_multiplicity (content : List Char) (material_paths : List (List Char))
    (p : List Char) :
    (classifyPaths content material_paths).1.count p =
      if containsSub (quoted p) content then 0 else material_paths.count p := by
  induction material_paths with
  | nil => simp [classifyPaths]
  | cons q ps ih =>
    by_cases hq : containsSub (quoted q) content
    · by_cases hqp : q = p
      · subst hqp
        simp [classifyPaths, hq, ih]
      · simp [classifyPaths, hq, ih, List.count_cons, hqp, Ne.symm hqp]
    · by_cases hqp : q = p
      · subst hqp
        simp [classifyPaths, hq, ih, List.count_cons]
      · simp [classifyPaths, hq, ih, List.count_cons, hqp, Ne.symm hqp]

/-- C5: a candidate is classified new exactly when its quoted form does not
occur in the original manifest text, a candidate is classified existing
exactly when it does, both in input order; and when no candidate is new the
patch phase reports `allExist` and leaves the filesystem untouched. -/
theorem C5_classification (content : List Char) (material_paths : List (List Char)) :
    ((classifyPaths content material_paths).1 =
      material_paths.filter (fun p => !(containsSub (quoted p) content)) ∧
     (classifyPaths content material_paths).2 =
      material_paths.filter (fun p => containsSub (quoted p) content)) ∧
    ∀ fs wf, getText fs manifestName = some content →
      (classifyPaths content material_paths).1 = [] →
      runPatch fs wf material_paths = .ok (fs, .allExist) := by
  constructor
  · induction material_paths with
    | nil => simp [classifyPaths]
    | cons q ps ih =>
      by_cases hq : containsSub (quoted q) content
      · simp [classifyPaths, hq, ih.1, ih.2]
      · simp [classifyPaths, hq, ih.1, ih.2]
  · intro fs wf hread hempty
    simp [runPatch, update_common_flowstate_json, hread, hempty]

/-- A filesystem holding only the manifest, for the C5 witness. -/
def c5fs : FS := ⟨[(manifestName, .text c3content)], []⟩

/-- A write oracle under which every write succeeds. -/
def wfNone : WriteOracle := fun _ => none

set_option maxRecDepth 8000 in
/-- C5 witness: the classification theorem instantiated at a concrete
manifest whose single candidate path is already present. -/
theorem C5_witness :
    (classifyPaths c3content [str "material/a_sknp.rpak"]).1 =
      [str "material/a_sknp.rpak"].filter
        (fun p => !(containsSub (quoted p) c3content)) ∧
    runPatch c5fs wfNone [str "material/a_sknp.rpak"] = .ok (c5fs, .allExist) :=
  ⟨(C5_classification c3content [str "material/a_sknp.rpak"]).1.1,
   (C5_classification c3content [str "material/a_sknp.rpak"]).2 c5fs wfNone rfl rfl⟩

/-- C6: when the manifest text contains no occurrence of the marker
sequence and at least one candidate path is new, the patch phase reports
the warning outcome and returns the filesystem unchanged, so the manifest
file is byte-identical before and after. -/
theorem C6_no_marker (fs : FS) (wf : WriteOracle) (material_paths : List (List Char))
    (content : List Char)
    (h1 : getText fs manifestName = some content)
    (h2 : findSub matlMarker content = none)
    (h3 : (classifyPaths content material_paths).1 ≠ []) :
    runPatch fs wf material_paths = .ok (fs, .noMarker) := by
  simp [runPatch, update_common_flowstate_json, h1, h2, h3]

/-- A manifest without any matl marker, used as concrete input. -/
def c6content : List Char := str "\x7b\n  \"files\": []\n\x7d\n"

/-- A filesystem holding only the marker-free manifest. -/
def c6fs : FS := ⟨[(manifestName, .text c6content)], []⟩

/-- C6 witness: the no-marker theorem instantiated at a concrete manifest
and one new path. -/
theorem C6_witness : runPatch c6fs wfNone [c3path] = .ok (c6fs, .noMarker) :=
  C6_no_marker c6fs wfNone [c3path] c6content rfl rfl (by decide)

/-- Creating a directory does not change any file. -/
theorem getFile_mkdirP (fs : FS) (d p : List Char) :
    getFile (mkdirP fs d) p = getFile fs p := by
  unfold mkdirP
  split <;> rfl

/-- Lookup after an association-list update. -/
theorem lookupA_setA (p : List Char) (d : FileData) (q : List Char)
    (l : List (List Char × FileData)) :
    lookupA q (setA p d l) = if q = p then some d else lookupA q l := by
  induction l with
  | nil =>
    simp only [setA, lookupA]
    split_ifs with h1 h2 <;> simp_all
  | cons e t ih =>
    obtain ⟨r, f⟩ := e
    simp only [setA, lookupA]
    split_ifs <;> simp_all [lookupA]

/-- Reading after a file write. -/
theorem getFile_setFile (fs : FS) (p : List Char) (d : FileData) (q : List Char) :
    getFile (setFile fs p d) q = if q = p then some d else getFile fs q := by
  simp [getFile, setFile, lookupA_setA]

/-- The generated JSON path always starts inside `assets`, so it is never
the template file name. -/
theorem jsonFilePath_ne_uberName (material_name : List Char) :
    jsonFilePath material_name ≠ uberName := by
  intro h
  have h1 : (jsonFilePath material_name).head? = some 'a' := by
    unfold jsonFilePath materialDir
    split <;> rfl
  rw [h] at h1
  exact absurd h1 (by decide)

/-- A filesystem with the template and a manifest holding one matl entry. -/
def c4fs : FS := ⟨[(uberName, .binary (str "UBER")), (manifestName, .text c3content)], []⟩

/-- A write oracle that raises a permission error exactly on the manifest. -/
def c4wf : WriteOracle :=
  fun p => if p = manifestName then some (str "PermissionError") else none

set_option maxRecDepth 16000 in
/-- C4: the claim is refuted by a permission error raised while writing the
manifest file, the claim's own example: the run does not propagate the
exception (it is caught by the blanket handler of the patcher), ending in a
normal `Except.ok` result that records the caught write failure. -/
theorem C4_counterexample :
    ∃ fsOut ps, generate_materials c4fs c4wf [str "b"] =
      .ok (fsOut, .completed ps (.writeFailed (str "PermissionError"))) :=
  ⟨_, _, rfl⟩

/-- C4 (amended): an I/O failure raised while writing a material JSON file
or while copying the binary template propagates out of the generator
uncaught, but every failure of the manifest write is caught inside the
patcher, which always returns normally. -/
theorem C4_error_propagation :
    (∀ fs wf n ns e, hasFile fs uberName = true → wf (jsonFilePath n) = some e →
        generate_materials fs wf (n :: ns) = .error e) ∧
    (∀ fs wf n ns e, hasFile fs uberName = true → wf (jsonFilePath n) = none →
        wf (uberFilePath n) = some e →
        generate_materials fs wf (n :: ns) = .error e) ∧
    (∀ content? material_paths wr, ∃ out,
        update_common_flowstate_json content? material_paths wr = .ok out) := by
  refine ⟨?_, ?_, ?_⟩
  · intro fs wf n ns e h hj
    simp [generate_materials, genLoop, processOne, h, hj]
  · intro fs wf n ns e h hj hu
    obtain ⟨tmpl, htmpl⟩ := Option.isSome_iff_exists.mp h
    simp [generate_materials, genLoop, processOne, h, hj, hu, getFile_setFile,
      getFile_mkdirP, Ne.symm (jsonFilePath_ne_uberName n), htmpl]
  · intro content? material_paths wr
    unfold update_common_flowstate_json
    rcases content? with _ | content
    · exact ⟨_, rfl⟩
    · dsimp only
      split
      · exact ⟨_, rfl⟩
      · split
        · exact ⟨_, rfl⟩
        · split
          · exact ⟨_, rfl⟩
          · cases wr with
            | ok u => exact ⟨_, rfl⟩
            | error e => exact ⟨_, rfl⟩

/-- A write oracle that raises exactly on the JSON file of material `b`. -/
def c4wfJson : WriteOracle :=
  fun p => if p = jsonFilePath (str "b") then some (str "Boom") else none

/-- C4 amended-claim witness: a failing JSON write propagates at a concrete
input, and a failing manifest write is caught at a concrete input. -/
theorem C4_witness :
    generate_materials c4fs c4wfJson [str "b"] = .error (str "Boom") ∧
    ∃ out, update_common_flowstate_json (some c3content) [c3path]
      (.error (str "PermissionError")) = .ok out :=
  ⟨C4_error_propagation.1 c4fs c4wfJson (str "b") [] (str "Boom") rfl rfl,
   C4_error_propagation.2.2 (some c3content) [c3path] (.error (str "PermissionError"))⟩

theorem processOne_ok {wf : WriteOracle} {fs : FS} {n : List Char} {fs' : FS} {p : List Char}
    (h : processOne wf fs n = .ok (fs', p)) :
    p = logicalPath n ∧
    ∃ tmpl, fs' = setFile (setFile (mkdirP fs (materialDir n)) (jsonFilePath n)
      (.jsonFile (create_material_json n))) (uberFilePath n) tmpl := by
  unfold processOne at h
  simp only [] at h
  repeat' split at h
  all_goals cases h
  exact ⟨rfl, _, rfl⟩

theorem processOne_hasFile {wf : WriteOracle} {fs : FS} {n : List Char} {fs' : FS}
    {p : List Char} (h : processOne wf fs n = .ok (fs', p)) (q : List Char)
    (hq : hasFile fs q = true) : hasFile fs' q = true := by
  obtain ⟨-, tmpl, rfl⟩ := processOne_ok h
  simp only [hasFile, getFile_setFile, getFile_mkdirP]
  split_ifs <;> simp_all [hasFile]

theorem processOne_creates {wf : WriteOracle} {fs : FS} {n : List Char} {fs' : FS}
    {p : List Char} (h : processOne wf fs n = .ok (fs', p)) :
    hasFile fs' (jsonFilePath n) = true ∧ hasFile fs' (uberFilePath n) = true := by
  obtain ⟨-, tmpl, rfl⟩ := processOne_ok h
  constructor <;>
    · simp only [hasFile, getFile_setFile, getFile_mkdirP]
      split_ifs <;> simp

theorem genLoop_ok (wf : WriteOracle) :
    ∀ (names : List (List Char)) (fs fs1 : FS) (ps : List (List Char)),
      genLoop wf fs names = .ok (fs1, ps) →
      ps = names.map logicalPath ∧
      (∀ q, hasFile fs q = true → hasFile fs1 q = true) ∧
      (∀ n ∈ names, hasFile fs1 (jsonFilePath n) = true ∧
        hasFile fs1 (uberFilePath n) = true) := by
  intro names
  induction names with
  | nil =>
    intro fs fs1 ps h
    simp only [genLoop, Except.ok.injEq, Prod.mk.injEq] at h
    obtain ⟨rfl, rfl⟩ := h
    simp
  | cons n ns ih =>
    intro fs fs1 ps h
    unfold genLoop at h
    split at h
    · exact absurd h (by simp)
    · next fsa pa hpo =>
      split at h
      · exact absurd h (by simp)
      · next fsb psb hloop =>
        simp only [Except.ok.injEq, Prod.mk.injEq] at h
        obtain ⟨rfl, rfl⟩ := h
        obtain ⟨hmap, hmono, hmem⟩ := ih fsa fsb psb hloop
        refine ⟨by simp [hmap, (processOne_ok hpo).1], ?_, ?_⟩
        · intro q hq
          exact hmono q (processOne_hasFile hpo q hq)
        · intro m hm
          rcases List.mem_cons.mp hm with rfl | hm2
          · exact ⟨hmono _ (processOne_creates hpo).1, hmono _ (processOne_creates hpo).2⟩
          · exact hmem m hm2

/-- C7: if the template file is absent the generator returns the unchanged
filesystem before processing any material name (no files or directories are
created); if the manifest file is absent after generation, the patch phase
alone aborts with the missing-file outcome, returning the post-generation
filesystem untouched, in which every generated material file is present. -/
theorem C7_missing_inputs :
    (∀ (fs : FS) (wf : WriteOracle) (names : List (List Char)), names ≠ [] →
        hasFile fs uberName = false →
        generate_materials fs wf names = .ok (fs, .noTemplate)) ∧
    (∀ (fs : FS) (wf : WriteOracle) (names : List (List Char)) (fs1 : FS)
        (ps : List (List Char)), names ≠ [] →
        hasFile fs uberName = true →
        genLoop wf fs names = .ok (fs1, ps) →
        getText fs1 manifestName = none →
        generate_materials fs wf names = .ok (fs1, .completed ps .fileNotFound) ∧
          ∀ n ∈ names, hasFile fs1 (jsonFilePath n) = true ∧
            hasFile fs1 (uberFilePath n) = true) := by
  constructor
  · intro fs wf names h1 h2
    simp [generate_materials, h1, h2]
  · intro fs wf names fs1 ps h1 h2 hloop hread
    refine ⟨?_, (genLoop_ok wf names fs fs1 ps hloop).2.2⟩
    simp [generate_materials, h1, h2, hloop, runPatch, update_common_flowstate_json, hread]

/-- A filesystem holding only the binary template, used as concrete input. -/
def c7fs : FS := ⟨[(uberName, .binary (str "UBER"))], []⟩

set_option maxRecDepth 16000 in
/-- C7 witness: both parts instantiated concretely, with the template absent
in the first run and the manifest absent in the second. -/
theorem C7_witness :
    generate_materials ⟨[], []⟩ wfNone [str "b"] = .ok (⟨[], []⟩, .noTemplate) ∧
    ∃ fs1 ps, genLoop wfNone c7fs [str "b"] = .ok (fs1, ps) ∧
      generate_materials c7fs wfNone [str "b"] = .ok (fs1, .completed ps .fileNotFound) ∧
      hasFile fs1 (jsonFilePath (str "b")) = true ∧
      hasFile fs1 (uberFilePath (str "b")) = true :=
  ⟨C7_missing_inputs.1 ⟨[], []⟩ wfNone [str "b"] (by simp) rfl,
   _, _, rfl,
   (C7_missing_inputs.2 c7fs wfNone [str "b"] _ _ (by simp) rfl rfl rfl).1,
   (C7_missing_inputs.2 c7fs wfNone [str "b"] _ _ (by simp) rfl rfl rfl).2
     (str "b") (by simp)⟩

/-- C8: for every run of the per-material loop that finishes, the recorded
sequence of logical manifest paths is exactly the input names, in input
order, each mapped to `material/<full_material_name>_sknp.rpak` by pure
string concatenation with forward slashes, independent of the filesystem
and of the physical output directory structure. -/
theorem C8_logical_paths (wf : WriteOracle) (names : List (List Char)) (fs fs1 : FS)
    (ps : List (List Char)) (h : genLoop wf fs names = .ok (fs1, ps)) :
    ps = names.map (fun n => str "material/" ++ n ++ str "_sknp.rpak") :=
  (genLoop_ok wf names fs fs1 ps h).1

set_option maxRecDepth 16000 in
/-- C8 witness: the loop run on the names `foo/bar` and `baz` records the
two logical paths in input order. -/
theorem C8_witness :
    ∃ fs1 ps, genLoop wfNone c7fs [str "foo/bar", str "baz"] = .ok (fs1, ps) ∧
      ps = [str "foo/bar", str "baz"].map
        (fun n => str "material/" ++ n ++ str "_sknp.rpak") :=
  ⟨_, _, rfl, C8_logical_paths wfNone [str "foo/bar", str "baz"] c7fs _ _ rfl⟩

/-- C9: generation proceeds exactly when the confirmation response, after
stripping, lowercases to `y` or `yes`; for every other response the program
reports cancellation and returns the filesystem unchanged, so no files,
directories or manifest changes are made. -/
theorem C9_confirmation (confirm : List Char) :
    (confirmAccepted confirm = true ↔
      ((pyStrip confirm).map Char.toLower = str "y" ∨
       (pyStrip confirm).map Char.toLower = str "yes")) ∧
    ∀ (fs : FS) (wf : WriteOracle) (names : List (List Char)), names ≠ [] →
      confirmAccepted confirm = false →
      main_model fs wf names confirm = .ok (fs, .cancelled) := by
  constructor
  · simp [confirmAccepted]
  · intro fs wf names h1 h2
    simp [main_model, h1, h2]

/-- C9 witness: the response ` Y ` is accepted after stripping and
lowering, while the response `n` cancels and leaves the filesystem as it
was. -/
theorem C9_witness :
    ((pyStrip (str " Y ")).map Char.toLower = str "y" ∨
     (pyStrip (str " Y ")).map Char.toLower = str "yes") ∧
    main_model c7fs wfNone [str "b"] (str "n") = .ok (c7fs, .cancelled) :=
  ⟨(C9_confirmation (str " Y ")).1.mp rfl,
   (C9_confirmation (str "n")).2 c7fs wfNone [str "b"] (by simp) rfl⟩

/-- A Python-style split never produces the empty list of fields. -/
theorem pySplit_ne_nil (sep : Char) (s : List Char) : pySplit sep s ≠ [] := by
  cases s with
  | nil => simp [pySplit]
  | cons c t =>
    simp only [pySplit]
    split
    · simp
    · split <;> simp

/-- Splitting a string that ends in the separator yields the fields of the
rest followed by one empty field. -/
theorem pySplit_concat_sep (sep : Char) (xs : List Char) :
    pySplit sep (xs ++ [sep]) = pySplit sep xs ++ [[]] := by
  induction xs with
  | nil => simp [pySplit]
  | cons c t ih =>
    obtain ⟨h, t2, hsp⟩ := List.exists_cons_of_ne_nil (pySplit_ne_nil sep t)
    by_cases hc : c = sep
    · rw [List.cons_append, pySplit, pySplit, ih]
      simp [hc]
    · rw [List.cons_append, pySplit, pySplit, ih, hsp]
      simp [hc]

/-- The base identifier of a material name ending in a slash is empty. -/
theorem baseName_concat_slash (xs : List Char) : baseName (xs ++ [slash]) = [] := by
  unfold baseName
  rw [pySplit_concat_sep]
  simp

/-- C10: for a material name whose last character is a slash, the derived
base identifier is empty, so the generated file paths are the directory
derived from the leading segments joined with the bare names `_sknp.json`
and `_sknp.uber`, the recorded logical path is still
`material/<name>_sknp.rpak` for the full name, and processing such a name
succeeds without any validation rejecting it. -/
theorem C10_trailing_slash (xs : List Char) (fs : FS) (wf : WriteOracle)
    (hw1 : wf (jsonFilePath (xs ++ [slash])) = none)
    (hw2 : wf (uberFilePath (xs ++ [slash])) = none)
    (htmpl : hasFile fs uberName = true) :
    baseName (xs ++ [slash]) = [] ∧
    jsonFilePath (xs ++ [slash]) =
      materialDir (xs ++ [slash]) ++ slash :: str "_sknp.json" ∧
    uberFilePath (xs ++ [slash]) =
      materialDir (xs ++ [slash]) ++ slash :: str "_sknp.uber" ∧
    logicalPath (xs ++ [slash]) =
      str "material/" ++ (xs ++ [slash]) ++ str "_sknp.rpak" ∧
    ∃ fs', processOne wf fs (xs ++ [slash]) =
      .ok (fs', logicalPath (xs ++ [slash])) := by
  obtain ⟨tmpl, hget⟩ := Option.isSome_iff_exists.mp htmpl
  refine ⟨baseName_concat_slash xs, ?_, ?_, rfl, ?_⟩
  · unfold jsonFilePath
    rw [baseName_concat_slash]
    rfl
  · unfold uberFilePath
    rw [baseName_concat_slash]
    rfl
  · exact ⟨setFile
        (setFile (mkdirP fs (materialDir (xs ++ [slash]))) (jsonFilePath (xs ++ [slash]))
          (.jsonFile (create_material_json (xs ++ [slash]))))
        (uberFilePath (xs ++ [slash])) tmpl, by
      simp [processOne, hw1, hw2, getFile_setFile, getFile_mkdirP,
        Ne.symm (jsonFilePath_ne_uberName (xs ++ [slash])), hget]⟩

set_option maxRecDepth 16000 in
/-- C10 witness: the trailing-slash theorem instantiated at the name
`foo/`, over a filesystem holding only the template. -/
theorem C10_witness :
    baseName (str "foo" ++ [slash]) = [] ∧
    jsonFilePath (str "foo" ++ [slash]) =
      materialDir (str "foo" ++ [slash]) ++ slash :: str "_sknp.json" ∧
    uberFilePath (str "foo" ++ [slash]) =
      materialDir (str "foo" ++ [slash]) ++ slash :: str "_sknp.uber" ∧
    logicalPath (str "foo" ++ [slash]) =
      str "material/" ++ (str "foo" ++ [slash]) ++ str "_sknp.rpak" ∧
    ∃ fs', processOne wfNone c7fs (str "foo" ++ [slash]) =
      .ok (fs', logicalPath (str "foo" ++ [slash])) :=
  C10_trailing_slash (str "foo") c7fs wfNone rfl rfl rfl
